import Mathlib

/-!
Verification of the workflow-as-code synchronization engine of the CDS
continuous-delivery platform: archive packing and extraction
(`engine/api/workflow/repository.go`), the repository-operation poller,
and workflow parsing / hook reconciliation
(`engine/api/workflow/workflow_parser.go`).

The Go code is shallowly embedded: maps become association lists, the
external collaborators (yaml deserialization, `DefaultPayload`,
`GetWorkflow`) become function parameters, and the poller's select loop
becomes a function over the sequence of fired events.
-/

set_option autoImplicit false

namespace CDS

/-- `strContains s sub` models Go's `strings.Contains s sub`:
`sub` occurs as a contiguous substring of `s`. -/
def strContains (s sub : String) : Bool :=
  decide (sub.data <:+: s.data)

/-- Entity kind that a file name classifies to, per the name-substring
convention of `extractFromCDSFiles` (repository.go:178-203). -/
inductive EntityKind where
  | app
  | pip
  | env
  | workflow
  deriving DecidableEq, Repr

/-- Classification of a tar entry name, translated from the `switch` in
`extractFromCDSFiles` (repository.go:178-203): `.app.` / `.pip.` /
`.env.` in order, otherwise workflow. -/
def classifyEntry (name : String) : EntityKind :=
  if strContains name ".app." then .app
  else if strContains name ".pip." then .pip
  else if strContains name ".env." then .env
  else .workflow

/-- One tar entry: the header name and the file content
(bytes modelled as a string). -/
structure TarEntry where
  name : String
  content : String
  deriving DecidableEq, Repr

/-- The yaml deserializers used by `extractFromCDSFiles`. They live in
`gopkg.in/yaml.v2` / `sdk/exportentities`, outside the sampled sources,
so they are parameters of the embedding; a failure carries the error
text that Go would interpolate as `%v`. -/
structure Parsers (W A P E : Type) where
  parseWorkflow : String → Except String W
  parseApp : String → Except String A
  parsePip : String → Except String P
  parseEnv : String → Except String E

/-- `exportedEntities` (repository.go:143-148): the bundle produced by
one extraction. Go maps keyed by file name become association lists. -/
structure ExportedEntities (W A P E : Type) where
  wrkflw : Option W
  apps : List (String × A)
  pips : List (String × P)
  envs : List (String × E)
  deriving DecidableEq, Repr

/-- Go map assignment `m[k] = v`: replace the binding of `k` if present,
otherwise append it. -/
def mapSet {α : Type} : List (String × α) → String → α → List (String × α)
  | [], k, v => [(k, v)]
  | (k', v') :: rest, k, v =>
    if k' = k then (k, v) :: rest else (k', v') :: mapSet rest k v

/-- State threaded through the extraction loop: the bundle under
construction and the `sdk.MultiError` collector (a list of messages). -/
structure ExtractState (W A P E : Type) where
  res : ExportedEntities W A P E
  errs : List String
  deriving DecidableEq, Repr

/-- One iteration of the extraction loop of `extractFromCDSFiles`
(repository.go:158-216). `workflowFileName` is declared afresh inside
the loop body in the source (repository.go:176) and is never assigned,
so it is the empty string here, exactly as in the source. -/
def processEntry {W A P E : Type} (ps : Parsers W A P E)
    (st : ExtractState W A P E) (e : TarEntry) : ExtractState W A P E :=
  let workflowFileName : String := ""
  match classifyEntry e.name with
  | .app =>
    match ps.parseApp e.content with
    | .error er =>
      { st with errs := st.errs ++ ["Unable to unmarshal application " ++ e.name ++ ": " ++ er] }
    | .ok a => { st with res := { st.res with apps := mapSet st.res.apps e.name a } }
  | .pip =>
    match ps.parsePip e.content with
    | .error er =>
      { st with errs := st.errs ++ ["Unable to unmarshal pipeline " ++ e.name ++ ": " ++ er] }
    | .ok p => { st with res := { st.res with pips := mapSet st.res.pips e.name p } }
  | .env =>
    match ps.parseEnv e.content with
    | .error er =>
      { st with errs := st.errs ++ ["Unable to unmarshal environment " ++ e.name ++ ": " ++ er] }
    | .ok v => { st with res := { st.res with envs := mapSet st.res.envs e.name v } }
  | .workflow =>
    if workflowFileName ≠ "" then
      { st with errs := st.errs ++
          ["two workflows files found: " ++ workflowFileName ++ " and " ++ e.name] }
    else
      match ps.parseWorkflow e.content with
      | .error er =>
        { st with errs := st.errs ++ ["Unable to unmarshal workflow " ++ e.name ++ ": " ++ er] }
      | .ok wf => { st with res := { st.res with wrkflw := some wf } }

/-- Failure of the extraction as a whole: the single combined
`sdk.ErrWorkflowInvalid` error carrying the collected messages. -/
inductive ExtractErr where
  | workflowInvalid (msgs : List String)
  deriving DecidableEq, Repr

/-- `extractFromCDSFiles` (repository.go:150-226): read every entry,
classify and deserialize it, collect failures in the `MultiError`, and
fail at the end with `ErrWorkflowInvalid` if the collector is non-empty,
otherwise return the populated bundle. -/
def extractFromCDSFiles {W A P E : Type} (ps : Parsers W A P E)
    (entries : List TarEntry) : Except ExtractErr (ExportedEntities W A P E) :=
  let st := entries.foldl (processEntry ps)
    { res := { wrkflw := none, apps := [], pips := [], envs := [] }, errs := [] }
  if st.errs = [] then .ok st.res else .error (.workflowInvalid st.errs)

/-- The parse error produced for one entry, when it fails: the message
that `extractFromCDSFiles` appends to the collector for that entry,
`none` when the entry deserializes. Used to state which files fail
independently of the loop. -/
def entryParseErr {W A P E : Type} (ps : Parsers W A P E) (e : TarEntry) : Option String :=
  match classifyEntry e.name with
  | .app =>
    match ps.parseApp e.content with
    | .error er => some ("Unable to unmarshal application " ++ e.name ++ ": " ++ er)
    | .ok _ => none
  | .pip =>
    match ps.parsePip e.content with
    | .error er => some ("Unable to unmarshal pipeline " ++ e.name ++ ": " ++ er)
    | .ok _ => none
  | .env =>
    match ps.parseEnv e.content with
    | .error er => some ("Unable to unmarshal environment " ++ e.name ++ ": " ++ er)
    | .ok _ => none
  | .workflow =>
    match ps.parseWorkflow e.content with
    | .error er => some ("Unable to unmarshal workflow " ++ e.name ++ ": " ++ er)
    | .ok _ => none

/-- Go's `path/filepath.Base` on slash-separated paths: empty path gives
`"."`, trailing slashes are stripped, everything up to the last slash is
dropped, and an all-slash path gives `"/"`. -/
def filepathBase (p : String) : String :=
  if p = "" then "."
  else
    let cs := (p.data.reverse.dropWhile (fun c => c = '/')).reverse
    let base := (cs.reverse.takeWhile (fun c => c ≠ '/')).reverse
    if base = [] then "/" else String.mk base

/-- A tar header as written by `ReadCDSFiles` (repository.go:121-125). -/
structure TarHeader where
  Name : String
  Mode : Int
  Size : Int
  deriving DecidableEq, Repr

/-- `ReadCDSFiles` (repository.go:113-141): pack the name→content
mapping into a tar archive. Each header takes the base name, fixed mode
`0600` and the exact content length; the in-memory buffer writes cannot
fail, and the `n == 0` guard after `tw.Write` (repository.go:131-133)
fails with `nothing to write` whenever zero bytes were written. -/
def ReadCDSFiles : List (String × String) → Except String (List (TarHeader × String))
  | [] => .ok []
  | (fname, fcontent) :: rest =>
    let hdr : TarHeader :=
      { Name := filepathBase fname, Mode := 0o600, Size := (fcontent.length : Int) }
    if fcontent.length = 0 then .error "nothing to write"
    else
      match ReadCDSFiles rest with
      | .error e => .error e
      | .ok tl => .ok ((hdr, fcontent) :: tl)

/-- `sdk.RepositoryStrategy`: the repository credential strategy carried
by an operation. `SSHKeyContent` and `Password` are the secret fields
blanked by the poller's redaction (repository.go:247-248). -/
structure RepositoryStrategy where
  ConnectionType : String
  User : String
  Password : String
  SSHKey : String
  SSHKeyContent : String
  deriving DecidableEq, Repr

/-- `sdk.Operation` status values (terminal: `done`, `error`). -/
inductive OperationStatus where
  | pending
  | processing
  | done
  | error
  deriving DecidableEq, Repr

/-- The fields of `sdk.Operation` used by the poller: status, the error
detail, the identification of the repository and its credential
strategy. -/
structure Operation where
  Status : OperationStatus
  Error : String
  VCSServer : String
  RepoFullName : String
  URL : String
  RepositoryStrategy : RepositoryStrategy
  deriving DecidableEq, Repr

/-- The redacted copy `opeTrusted` built by `pollRepositoryOperation` on
error status (repository.go:246-248): a copy of the operation whose
`SSHKeyContent` and `Password` are replaced by `***`. -/
def redactOperation (o : Operation) : Operation :=
  { o with RepositoryStrategy :=
      { o.RepositoryStrategy with SSHKeyContent := "***", Password := "***" } }

/-- Erase the two secret fields. Two operations with the same erasure
agree on everything except the secret values; used to state that the
error text is independent of the secrets. -/
def eraseSecrets (o : Operation) : Operation :=
  { o with RepositoryStrategy :=
      { o.RepositoryStrategy with SSHKeyContent := "", Password := "" } }

/-- Rendering of an operation as Go's `%+v` does for the error message
of `pollRepositoryOperation` (repository.go:249): every field appears,
including both credential fields. -/
def formatOperation (o : Operation) : String :=
  "Status:" ++ (match o.Status with
    | .pending => "pending"
    | .processing => "processing"
    | .done => "done"
    | .error => "error")
  ++ " Error:" ++ o.Error
  ++ " VCSServer:" ++ o.VCSServer
  ++ " RepoFullName:" ++ o.RepoFullName
  ++ " URL:" ++ o.URL
  ++ " RepositoryStrategy:(ConnectionType:" ++ o.RepositoryStrategy.ConnectionType
  ++ " User:" ++ o.RepositoryStrategy.User
  ++ " Password:" ++ o.RepositoryStrategy.Password
  ++ " SSHKey:" ++ o.RepositoryStrategy.SSHKey
  ++ " SSHKeyContent:" ++ o.RepositoryStrategy.SSHKeyContent ++ ")"

/-- The error text returned when the operation reaches `error` status
(repository.go:246-249): the wrap message formats the redacted copy
`opeTrusted`, and the cause is the operation's own error detail. -/
def operationErrorMessage (o : Operation) : String :=
  "getImportAsCodeHandler> Operation in error. "
    ++ formatOperation (redactOperation o) ++ ": " ++ o.Error

/-- One event fired in the poller's `select` (repository.go:233-254):
the context's done channel (carrying `c.Err()`, possibly absent), the
timeout ticker, or the poll ticker together with the outcome of
`operation.GetRepositoryOperation` on that tick. -/
inductive PollEvent where
  | ctxDone (ctxErr : Option String)
  | timeout
  | poll (fetch : Except String Operation)
  deriving Repr

/-- The outcome of one run of `pollRepositoryOperation`; each Go return
site maps to its own constructor, so the error kinds are distinguishable
by construction. -/
inductive PollResult where
  | ctxCanceled (e : String)
  | timeout
  | fetchError (e : String)
  | opError (msg : String)
  | success
  deriving DecidableEq, Repr

/-- The loop of `pollRepositoryOperation` (repository.go:232-255) over
the sequence of fired events: context cancellation returns the context's
error (and loops when `c.Err()` is nil, as the `if` falls through),
timeout returns the timeout kind, a failing status fetch is surfaced
immediately, and a fetched operation returns on the terminal statuses
and keeps looping otherwise. `none` means the trace ended with the loop
still running. -/
def pollLoop : List PollEvent → Option PollResult
  | [] => none
  | e :: rest =>
    match e with
    | .ctxDone (some err) => some (.ctxCanceled err)
    | .ctxDone none => pollLoop rest
    | .timeout => some .timeout
    | .poll (.error e) => some (.fetchError e)
    | .poll (.ok o) =>
      match o.Status with
      | .error => some (.opError (operationErrorMessage o))
      | .done => some .success
      | _ => pollLoop rest

/-- A run of `pollRepositoryOperation` together with its timer resource
accounting: both tickers are created on entry (repository.go:229-230),
and on any return only the deferred `tickTimeout.Stop()`
(repository.go:231) runs — there is no `tickPoll.Stop()` in the
function. -/
structure PollerRun where
  result : Option PollResult
  createdTimers : List String
  stoppedTimers : List String
  deriving DecidableEq, Repr

/-- `pollRepositoryOperation` (repository.go:228-256) with resource
tracking: the deferred stop of the timeout ticker runs exactly when the
function returns (the trace reached a return site); the poll ticker is
never stopped. -/
def pollRepositoryOperation (events : List PollEvent) : PollerRun :=
  { result := pollLoop events
  , createdTimers := ["tickTimeout", "tickPoll"]
  , stoppedTimers := if (pollLoop events).isSome then ["tickTimeout"] else [] }

/-- `sdk.WorkflowNodeHookConfigValue`: one configuration value of a
node hook (the `Value` field is the one read and written by the sampled
code). -/
structure WorkflowNodeHookConfigValue where
  Value : String
  deriving DecidableEq, Repr

/-- `sdk.WorkflowNodeHookConfig`: the hook configuration map, keyed by
configuration name. -/
abbrev WorkflowNodeHookConfig : Type := List (String × WorkflowNodeHookConfigValue)

/-- Modelled from the spec: `sdk.WorkflowNodeHookConfig.Clone` (outside
the sampled sources) copies every entry of the map into a fresh map, so
the clone holds the same keys and values. -/
def WorkflowNodeHookConfig.Clone (cfg : WorkflowNodeHookConfig) : WorkflowNodeHookConfig :=
  cfg.map (fun kv => (kv.1, { Value := kv.2.Value }))

/-- Go map assignment on a hook configuration. -/
def WorkflowNodeHookConfig.set (cfg : WorkflowNodeHookConfig) (k : String)
    (v : WorkflowNodeHookConfigValue) : WorkflowNodeHookConfig :=
  mapSet cfg k v

/-- Modelled from the spec: `sdk.HookConfigWorkflow`, the well-known
configuration key holding the bound workflow name. -/
def HookConfigWorkflow : String := "workflow"

/-- The fields of `sdk.WorkflowHookModel` read by the sampled code:
name, id and default configuration. -/
structure HookModel where
  Name : String
  ID : Int
  DefaultConfig : WorkflowNodeHookConfig
  deriving DecidableEq, Repr

/-- Modelled from the spec: `sdk.RepositoryWebHookModel`, the canonical
repository-webhook model, a platform-wide constant (name/id pair and
default configuration) defined outside the sampled sources. -/
def RepositoryWebHookModel : HookModel :=
  { Name := "RepositoryWebHook"
  , ID := 1
  , DefaultConfig := [("method", { Value := "POST" })] }

/-- `sdk.NodeHook`: a trigger attached to a workflow node. -/
structure NodeHook where
  UUID : String
  HookModelName : String
  HookModelID : Int
  Config : WorkflowNodeHookConfig
  deriving DecidableEq, Repr

/-- Modelled from the spec: `sdk.NodeHook.Ref` (outside the sampled
sources) is the reference derived from the hook's model and
configuration, used for equality comparison when no UUID match
exists. -/
def NodeHook.Ref (h : NodeHook) : String × WorkflowNodeHookConfig :=
  (h.HookModelName, h.Config)

/-- The fields of `sdk.NodeContext` used by the sampled code: the root
application id and the default run payload (payload modelled as an
abstract string). -/
structure NodeContext where
  ApplicationID : Int
  DefaultPayload : String
  deriving DecidableEq, Repr

/-- `sdk.Node`: the root node with its trigger hooks and context. -/
structure Node where
  Hooks : List NodeHook
  Context : NodeContext
  deriving DecidableEq, Repr

/-- `sdk.WorkflowData`: the workflow's node tree (only the root node is
touched by the sampled code). -/
structure WorkflowData where
  Node : Node
  deriving DecidableEq, Repr

/-- The fields of `sdk.Application` overwritten by the VCS-server
override of `ParseAndImport` (workflow_parser.go:94-99). -/
structure Application where
  VCSServer : String
  RepositoryFullname : String
  RepositoryStrategy : RepositoryStrategy
  deriving DecidableEq, Repr

/-- The fields of `sdk.Workflow` used by the sampled code. The
application map keyed by id becomes an association list. -/
structure Workflow where
  Name : String
  ProjectID : Int
  ProjectKey : String
  FromRepository : String
  DerivationBranch : String
  Applications : List (Int × Application)
  WorkflowData : WorkflowData
  deriving DecidableEq, Repr

/-- Lookup in the application map; Go `w.Applications[appID]` yields the
zero value when the id is absent, as `GetApplication` does. -/
def Workflow.GetApplication (w : Workflow) (appID : Int) : Application :=
  match w.Applications.find? (fun kv => kv.1 = appID) with
  | some kv => kv.2
  | none =>
    { VCSServer := "", RepositoryFullname := ""
    , RepositoryStrategy :=
        { ConnectionType := "", User := "", Password := "", SSHKey := "", SSHKeyContent := "" } }

/-- Go map assignment `w.Applications[appID] = app`. -/
def mapSetInt {α : Type} : List (Int × α) → Int → α → List (Int × α)
  | [], k, v => [(k, v)]
  | (k', v') :: rest, k, v =>
    if k' = k then (k, v) :: rest else (k', v') :: mapSetInt rest k v

/-- Replace the root node's hook list. -/
def Workflow.setHooks (w : Workflow) (hooks : List NodeHook) : Workflow :=
  { w with WorkflowData := { Node := { w.WorkflowData.Node with Hooks := hooks } } }

/-- `ImportOptions` (workflow_parser.go:17-27). -/
structure ImportOptions where
  Force : Bool
  WorkflowName : String
  FromRepository : String
  IsDefaultBranch : Bool
  FromBranch : String
  VCSServer : String
  RepositoryName : String
  RepositoryStrategy : RepositoryStrategy
  HookUUID : String
  deriving DecidableEq, Repr

/-- Whether a hook carries the canonical repository-webhook model
(the comparison `h.HookModelName == sdk.RepositoryWebHookModel.Name`
of workflow_parser.go:108 and 120). -/
def isRepoWebHook (h : NodeHook) : Bool :=
  h.HookModelName = RepositoryWebHookModel.Name

/-- The legacy hook: the first hook of the previous workflow's root node
whose model is the canonical repository-webhook model
(workflow_parser.go:105-112), `none` when the previous workflow is
absent or carries no such hook. -/
def oldRepoWebHookOf (oldW : Option Workflow) : Option NodeHook :=
  match oldW with
  | none => none
  | some ow => ow.WorkflowData.Node.Hooks.find? isRepoWebHook

/-- The configuration given to the reconciled hook: a clone of the
legacy configuration with the workflow-name key set to the new
workflow's name (workflow_parser.go:122-123 and 134-137). -/
def legacyConfigFor (oh : NodeHook) (wname : String) : WorkflowNodeHookConfig :=
  (oh.Config.Clone).set HookConfigWorkflow { Value := wname }

/-- The in-place update loop of workflow_parser.go:118-127: walk the new
workflow's hooks, overwrite the first one with the repository-webhook
model with the legacy UUID and cloned configuration, and report whether
one was found. -/
def updateRepoWebHooks (oh : NodeHook) (wname : String) :
    List NodeHook → List NodeHook × Bool
  | [] => ([], false)
  | h :: rest =>
    if isRepoWebHook h then
      ({ h with UUID := oh.UUID, Config := legacyConfigFor oh wname } :: rest, true)
    else
      let (r, found) := updateRepoWebHooks oh wname rest
      (h :: r, found)

/-- The hook appended when the legacy hook has no model match in the new
workflow (workflow_parser.go:130-139). -/
def legacyAppendedHook (oh : NodeHook) (wname : String) : NodeHook :=
  { UUID := oh.UUID
  , HookModelName := oh.HookModelName
  , HookModelID := oh.HookModelID
  , Config := legacyConfigFor oh wname }

/-- The default-configured repository webhook created on first import
(workflow_parser.go:147-151); the UUID is the Go zero value. -/
def newRepoWebHook : NodeHook :=
  { UUID := ""
  , HookModelName := RepositoryWebHookModel.Name
  , HookModelID := RepositoryWebHookModel.ID
  , Config := RepositoryWebHookModel.DefaultConfig.Clone }

/-- The repository-webhook reconciliation block of `ParseAndImport`
(workflow_parser.go:102-170). `dp` stands for the external
`DefaultPayload` computation (defined outside the sampled sources),
applied to the workflow as it stands when the call is made. -/
def reconcileHooks (dp : Workflow → String) (oldW : Option Workflow)
    (w : Workflow) : Workflow :=
  if w.FromRepository = "" then w
  else
    let oldRepoWebHook := oldRepoWebHookOf oldW
    let w :=
      match oldRepoWebHook with
      | none => w
      | some oh =>
        let (hooks, found) := updateRepoWebHooks oh w.Name w.WorkflowData.Node.Hooks
        if found then w.setHooks hooks
        else w.setHooks (hooks ++ [legacyAppendedHook oh w.Name])
    if oldW.isNone || oldRepoWebHook.isNone then
      let hasARepoWebHook :=
        w.WorkflowData.Node.Hooks.any (fun h => h.Ref = newRepoWebHook.Ref)
      let w :=
        if hasARepoWebHook then w
        else w.setHooks (w.WorkflowData.Node.Hooks ++ [newRepoWebHook])
      { w with WorkflowData := { Node := { w.WorkflowData.Node with
          Context := { w.WorkflowData.Node.Context with DefaultPayload := dp w } } } }
    else w

/-- The repository-linkage step of `ParseAndImport`
(workflow_parser.go:87-90): set the repository origin and, off the
default branch, the derivation branch. -/
def applyRepositoryLinkage (opts : ImportOptions) (w : Workflow) : Workflow :=
  let w := { w with FromRepository := opts.FromRepository }
  if !opts.IsDefaultBranch then { w with DerivationBranch := opts.FromBranch } else w

/-- The VCS-server override step of `ParseAndImport`
(workflow_parser.go:92-100): only when an override was requested and the
root node has an application context, overwrite that application's VCS
linkage in the application map. -/
def applyVCSOverride (opts : ImportOptions) (w : Workflow) : Workflow :=
  let appID := w.WorkflowData.Node.Context.ApplicationID
  if opts.VCSServer ≠ "" ∧ appID ≠ 0 then
    let app := w.GetApplication appID
    let app := { app with
      VCSServer := opts.VCSServer
    , RepositoryFullname := opts.RepositoryName
    , RepositoryStrategy := opts.RepositoryStrategy }
    { w with Applications := mapSetInt w.Applications appID app }
  else w

/-- The failures of the embedded `ParseAndImport` slice. -/
inductive ImportErr where
  | workflowNameImport
  deriving DecidableEq, Repr

/-- The pure slice of `ParseAndImport` after parsing and validation
(workflow_parser.go:87-174): repository linkage, VCS-server override,
repository-webhook reconciliation, and the workflow-name consistency
check (workflow_parser.go:172-174). -/
def parseAndImportCore (dp : Workflow → String) (opts : ImportOptions)
    (oldW : Option Workflow) (w : Workflow) : Except ImportErr Workflow :=
  let w := applyRepositoryLinkage opts w
  let w := applyVCSOverride opts w
  let w := reconcileHooks dp oldW w
  if opts.WorkflowName ≠ "" ∧ w.Name ≠ opts.WorkflowName then
    .error .workflowNameImport
  else .ok w

/-- `sdk.Group`: only the name is read by `Parse`. -/
structure Group where
  Name : String
  deriving DecidableEq, Repr

/-- `sdk.GroupPermission`: one project-group permission entry. -/
structure GroupPermission where
  Group : Group
  Permission : Int
  deriving DecidableEq, Repr

/-- The fields of `sdk.Project` used by `Parse` and `ParseAndImport`. -/
structure Project where
  ID : Int
  Key : String
  ProjectGroups : List GroupPermission
  deriving DecidableEq, Repr

/-- The fields of `exportentities.Workflow` touched by `Parse`: the
declared name and the permissions map (group name → permission). -/
structure ExportWorkflow where
  Name : String
  Permissions : List (String × Int)
  deriving DecidableEq, Repr

/-- Modelled from the spec: `sdk.NamePatternRegex` (outside the sampled
sources), the platform's name pattern — a non-empty word of
alphanumerics, dots, underscores and dashes. -/
def namePatternMatch (s : String) : Bool :=
  s.length > 0 && s.data.all (fun c => c.isAlphanum || c = '.' || c = '_' || c = '-')

/-- The failures of `Parse` (workflow_parser.go:36-52). -/
inductive ParseErr where
  | invalidApplicationPattern
  | wrongRequest (e : String)
  deriving DecidableEq, Repr

/-- `Parse` (workflow_parser.go:30-57). The Go function mutates its
`*exportentities.Workflow` argument in place; the embedding passes that
state explicitly and returns the argument's final value next to the
result. `getWorkflow` stands for `exportentities.Workflow.GetWorkflow`,
defined outside the sampled sources. Permission inheritance from the
project's groups (workflow_parser.go:41-46) happens only when the
argument declares no permissions, and before `GetWorkflow` is called. -/
def Parse (getWorkflow : ExportWorkflow → Except String Workflow)
    (proj : Project) (ew : ExportWorkflow) : ExportWorkflow × Except ParseErr Workflow :=
  if !namePatternMatch ew.Name then (ew, .error .invalidApplicationPattern)
  else
    let ew :=
      if ew.Permissions.length = 0 then
        { ew with Permissions :=
            proj.ProjectGroups.foldl (fun m p => mapSet m p.Group.Name p.Permission) [] }
      else ew
    match getWorkflow ew with
    | .error e => (ew, .error (.wrongRequest e))
    | .ok w => (ew, .ok { w with ProjectID := proj.ID, ProjectKey := proj.Key })

/-- Parsers that accept every file unchanged; used to exercise concrete
archives. -/
def acceptAllParsers : Parsers String String String String :=
  { parseWorkflow := .ok, parseApp := .ok, parsePip := .ok, parseEnv := .ok }

/-- An empty credential strategy. -/
def emptyStrategy : RepositoryStrategy :=
  { ConnectionType := "", User := "", Password := "", SSHKey := "", SSHKeyContent := "" }

/-- A fetched operation that has reached `done`. -/
def doneOperation : Operation :=
  { Status := .done, Error := "", VCSServer := "github", RepoFullName := "o/r"
  , URL := "", RepositoryStrategy := emptyStrategy }

/-- A fetched operation that has reached `error`, carrying secret
credential material. -/
def errorOperation : Operation :=
  { Status := .error, Error := "clone failed"
  , VCSServer := "github", RepoFullName := "o/r", URL := ""
  , RepositoryStrategy :=
      { ConnectionType := "ssh", User := "bot", Password := "hunter2"
      , SSHKey := "proj-key", SSHKeyContent := "PRIVATEKEY" } }

/-- `errorOperation` with the other secret values; differs from
`errorOperation` only in `SSHKeyContent` and `Password`. -/
def errorOperationAlt : Operation :=
  { errorOperation with RepositoryStrategy :=
      { errorOperation.RepositoryStrategy with
          Password := "other-secret", SSHKeyContent := "OTHERKEY" } }

/-- Parsers that fail on pipeline files whose content is `bad` and
accept everything else; used for the partial-failure witness. -/
def pipFailParsers : Parsers String String String String :=
  { parseWorkflow := .ok, parseApp := .ok
  , parsePip := fun c => if c = "bad" then .error "invalid yaml" else .ok c
  , parseEnv := .ok }

/-- A constant stand-in for the external `DefaultPayload` computation,
used on concrete inputs. -/
def constantPayload : Workflow → String := fun _ => "payload"

/-- Import options that request a VCS-server override. -/
def overrideOpts : ImportOptions :=
  { Force := false, WorkflowName := "", FromRepository := ""
  , IsDefaultBranch := true, FromBranch := ""
  , VCSServer := "github", RepositoryName := "org/repo"
  , RepositoryStrategy := emptyStrategy, HookUUID := "" }

/-- A workflow whose root node has no application context
(`ApplicationID` is the Go zero value). -/
def noAppWorkflow : Workflow :=
  { Name := "mywf", ProjectID := 1, ProjectKey := "PRJ"
  , FromRepository := "", DerivationBranch := ""
  , Applications := []
  , WorkflowData := { Node :=
      { Hooks := [], Context := { ApplicationID := 0, DefaultPayload := "" } } } }

/-- The previous workflow's repository webhook with stable UUID `U1`
and configuration holding key `a`. -/
def legacyHook : NodeHook :=
  { UUID := "U1"
  , HookModelName := RepositoryWebHookModel.Name
  , HookModelID := RepositoryWebHookModel.ID
  , Config := [("a", { Value := "1" })] }

/-- The previously persisted workflow, carrying `legacyHook`. -/
def oldWorkflowFix : Workflow :=
  { Name := "oldwf", ProjectID := 1, ProjectKey := "PRJ"
  , FromRepository := "https://r", DerivationBranch := ""
  , Applications := []
  , WorkflowData := { Node :=
      { Hooks := [legacyHook]
      , Context := { ApplicationID := 0, DefaultPayload := "" } } } }

/-- A freshly parsed hook of the repository-webhook model with no UUID
yet. -/
def newHookNoUUID : NodeHook :=
  { UUID := "", HookModelName := RepositoryWebHookModel.Name
  , HookModelID := 0, Config := [] }

/-- The freshly parsed workflow, renamed to `neww`, carrying one
matching-model hook without a UUID. -/
def newWorkflowFix : Workflow :=
  { Name := "neww", ProjectID := 1, ProjectKey := "PRJ"
  , FromRepository := "https://r", DerivationBranch := ""
  , Applications := []
  , WorkflowData := { Node :=
      { Hooks := [newHookNoUUID]
      , Context := { ApplicationID := 0, DefaultPayload := "" } } } }

/-- A first-import workflow: repository origin set, no hooks at all. -/
def freshRepoWorkflow : Workflow :=
  { Name := "mywf", ProjectID := 1, ProjectKey := "PRJ"
  , FromRepository := "https://r", DerivationBranch := ""
  , Applications := []
  , WorkflowData := { Node :=
      { Hooks := [], Context := { ApplicationID := 0, DefaultPayload := "" } } } }

/-- A hook satisfying `isRepoWebHook` and additionally carrying the
legacy UUID and the reconciled configuration; counting these states the
"exactly one such hook" part of hook reconciliation. -/
def isLegacyReconciledHook (oh : NodeHook) (wname : String) (h : NodeHook) : Bool :=
  decide (h.HookModelName = RepositoryWebHookModel.Name ∧
          h.UUID = oh.UUID ∧ h.Config = legacyConfigFor oh wname)

end CDS

namespace CDS

/-- Claim C1 (code bug): the spec says a second workflow-shaped file in
an archive is recorded as an aggregate error ("two workflows files
found"), extraction fails, and the later file is dropped. In the code,
the guard variable `workflowFileName` (repository.go:176) is declared
inside the loop and never assigned, so the guard at repository.go:205
can never fire: on an archive with two workflow-shaped files, extraction
succeeds and the second file's workflow silently replaces the first. -/
theorem c1_duplicate_workflow_not_detected :
    classifyEntry "one.yml" = .workflow ∧ classifyEntry "two.yml" = .workflow ∧
    extractFromCDSFiles acceptAllParsers [⟨"one.yml", "wf1"⟩, ⟨"two.yml", "wf2"⟩]
      = .ok { wrkflw := some "wf2", apps := [], pips := [], envs := [] } :=
  ⟨rfl, rfl, rfl⟩

/-- Claim C9 (code bug): the spec requires both the poll-interval ticker
and the hard-timeout ticker to be stopped on every exit path. The code
defers only `tickTimeout.Stop()` (repository.go:231); `tickPoll` is
never stopped, so its periodic wakeups leak after every return. Shown on
a run that exits via `done`, together with the general fact that no run
ever stops the poll ticker. -/
theorem c9_poll_ticker_never_stopped :
    (pollRepositoryOperation [PollEvent.poll (.ok doneOperation)]).result
        = some .success
    ∧ (pollRepositoryOperation [PollEvent.poll (.ok doneOperation)]).createdTimers
        = ["tickTimeout", "tickPoll"]
    ∧ (pollRepositoryOperation [PollEvent.poll (.ok doneOperation)]).stoppedTimers
        = ["tickTimeout"]
    ∧ ((pollRepositoryOperation [PollEvent.poll (.ok doneOperation)]).stoppedTimers.contains
        "tickPoll") = false
    ∧ ∀ events : List PollEvent,
        ((pollRepositoryOperation events).stoppedTimers.contains "tickPoll") = false := by
  refine ⟨rfl, rfl, rfl, rfl, ?_⟩
  intro events
  unfold pollRepositoryOperation
  dsimp only
  split <;> decide

/-- Claim C5: the poller's outcomes are mutually distinguishable kinds
and polling stops immediately on each: timeout yields the timeout kind,
context cancellation yields the context's own error (a kind distinct
from timeout), a failing status fetch is surfaced immediately, `done`
returns success and `error` returns the operation's error detail — in
every case ignoring whatever events would have come later. -/
theorem c5_poller_outcomes (rest : List PollEvent) (e : String) (o : Operation) :
    pollLoop (PollEvent.timeout :: rest) = some .timeout
    ∧ pollLoop (PollEvent.ctxDone (some e) :: rest) = some (.ctxCanceled e)
    ∧ pollLoop (PollEvent.poll (.error e) :: rest) = some (.fetchError e)
    ∧ (o.Status = .done → pollLoop (PollEvent.poll (.ok o) :: rest) = some .success)
    ∧ (o.Status = .error →
        pollLoop (PollEvent.poll (.ok o) :: rest)
          = some (.opError (operationErrorMessage o)))
    ∧ PollResult.ctxCanceled e ≠ PollResult.timeout
    ∧ PollResult.fetchError e ≠ PollResult.timeout
    ∧ PollResult.fetchError e ≠ PollResult.ctxCanceled e
    ∧ PollResult.success ≠ PollResult.timeout
    ∧ ∀ m : String, PollResult.opError m ≠ PollResult.success := by
  refine ⟨rfl, rfl, rfl, ?_, ?_, by simp, by simp, by simp, by simp, by simp⟩
  · intro h
    simp [pollLoop, h]
  · intro h
    simp [pollLoop, h]

/-- Witness for C5: the terminal-status cases at concrete operations. -/
theorem c5_poller_outcomes_witness :
    pollLoop [PollEvent.poll (.ok doneOperation)] = some .success
    ∧ pollLoop [PollEvent.poll (.ok errorOperation)]
        = some (.opError (operationErrorMessage errorOperation)) :=
  ⟨(c5_poller_outcomes [] "ctx" doneOperation).2.2.2.1 rfl,
   (c5_poller_outcomes [] "ctx" errorOperation).2.2.2.2.1 rfl⟩

/-- Claim C6: when polling reaches `error` status, the error text is
built from a redacted copy of the operation — so it is independent of
the two secret fields (two operations equal after erasing the secrets
yield the same text) — while the redaction takes place on the copy: it
leaves the status and error detail that fed the status check
untouched. -/
theorem c6_error_redaction (o1 o2 : Operation) (rest : List PollEvent)
    (hsec : eraseSecrets o1 = eraseSecrets o2) (herr : o1.Status = .error) :
    pollLoop (PollEvent.poll (.ok o1) :: rest)
        = some (.opError (operationErrorMessage o1))
    ∧ operationErrorMessage o1 = operationErrorMessage o2
    ∧ (redactOperation o1).Status = o1.Status
    ∧ (redactOperation o1).Error = o1.Error
    ∧ (redactOperation o1).RepositoryStrategy.SSHKeyContent = "***"
    ∧ (redactOperation o1).RepositoryStrategy.Password = "***" := by
  obtain ⟨s1, e1, v1, r1, u1, ⟨ct1, us1, p1, k1, kc1⟩⟩ := o1
  obtain ⟨s2, e2, v2, r2, u2, ⟨ct2, us2, p2, k2, kc2⟩⟩ := o2
  simp only [eraseSecrets, Operation.mk.injEq, RepositoryStrategy.mk.injEq,
    and_true, true_and] at hsec
  obtain ⟨hs, he, hv, hr, hu, hct, hus, hk⟩ := hsec
  subst hs he hv hr hu hct hus hk
  dsimp only at herr
  exact ⟨by simp [pollLoop, herr], rfl, rfl, rfl, rfl, rfl⟩

/-- Witness for C6: two error operations differing only in their SSH key
content and password produce the same error text. -/
theorem c6_error_redaction_witness :
    pollLoop [PollEvent.poll (.ok errorOperation)]
        = some (.opError (operationErrorMessage errorOperation))
    ∧ operationErrorMessage errorOperation = operationErrorMessage errorOperationAlt :=
  ⟨(c6_error_redaction errorOperation errorOperationAlt [] rfl rfl).1,
   (c6_error_redaction errorOperation errorOperationAlt [] rfl rfl).2.1⟩

/-- Unfolding `updateRepoWebHooks` on a hook of the repository-webhook
model: the hook is overwritten in place and the search stops. -/
theorem updateRepoWebHooks_cons_pos (oh : NodeHook) (n : String) (h : NodeHook)
    (rest : List NodeHook) (hr : isRepoWebHook h = true) :
    updateRepoWebHooks oh n (h :: rest)
      = ({ h with UUID := oh.UUID, Config := legacyConfigFor oh n } :: rest, true) := by
  rw [updateRepoWebHooks]
  simp [hr]

/-- Unfolding `updateRepoWebHooks` on a hook of a different model: the
hook is kept and the search continues. -/
theorem updateRepoWebHooks_cons_neg (oh : NodeHook) (n : String) (h : NodeHook)
    (rest : List NodeHook) (hr : isRepoWebHook h = false) :
    updateRepoWebHooks oh n (h :: rest)
      = (h :: (updateRepoWebHooks oh n rest).1, (updateRepoWebHooks oh n rest).2) := by
  rw [updateRepoWebHooks]
  rcases hx : updateRepoWebHooks oh n rest with ⟨r, f⟩
  simp [hr, hx]

/-- The found flag of `updateRepoWebHooks` is exactly "some hook has the
repository-webhook model". -/
theorem updateRepoWebHooks_snd (oh : NodeHook) (n : String) :
    ∀ hooks : List NodeHook,
      (updateRepoWebHooks oh n hooks).2 = hooks.any isRepoWebHook := by
  intro hooks
  induction hooks with
  | nil => rfl
  | cons h rest ih =>
    by_cases hr : isRepoWebHook h = true
    · rw [updateRepoWebHooks_cons_pos oh n h rest hr]
      simp [hr]
    · have hr' : isRepoWebHook h = false := by simpa using hr
      rw [updateRepoWebHooks_cons_neg oh n h rest hr']
      simp [hr', ih]

/-- When no hook has the repository-webhook model, the update pass
leaves the hook list unchanged. -/
theorem updateRepoWebHooks_fst_id (oh : NodeHook) (n : String) :
    ∀ hooks : List NodeHook, hooks.any isRepoWebHook = false →
      (updateRepoWebHooks oh n hooks).1 = hooks := by
  intro hooks
  induction hooks with
  | nil => intro _; rfl
  | cons h rest ih =>
    intro hnone
    simp only [List.any_cons, Bool.or_eq_false_iff] at hnone
    rw [updateRepoWebHooks_cons_neg oh n h rest hnone.1, ih hnone.2]

/-- The update pass overwrites exactly the first hook of the
repository-webhook model, in place. -/
theorem updateRepoWebHooks_first (oh : NodeHook) (n : String)
    (l1 : List NodeHook) (h : NodeHook) (l2 : List NodeHook)
    (hl1 : ∀ h' ∈ l1, isRepoWebHook h' = false) (hr : isRepoWebHook h = true) :
    (updateRepoWebHooks oh n (l1 ++ h :: l2)).1
      = l1 ++ { h with UUID := oh.UUID, Config := legacyConfigFor oh n } :: l2 := by
  induction l1 with
  | nil =>
    rw [List.nil_append, updateRepoWebHooks_cons_pos oh n h l2 hr]
    rfl
  | cons a t ih =>
    have ha : isRepoWebHook a = false := hl1 a (by simp)
    rw [List.cons_append, updateRepoWebHooks_cons_neg oh n a (t ++ h :: l2) ha]
    simp only [List.cons_append, List.cons.injEq, true_and]
    exact ih (fun h' hh' => hl1 h' (by simp [hh']))

/-- The update pass preserves which hooks carry the repository-webhook
model (the overwrite keeps the model name). -/
theorem updateRepoWebHooks_count_repo (oh : NodeHook) (n : String) :
    ∀ hooks : List NodeHook,
      ((updateRepoWebHooks oh n hooks).1).countP isRepoWebHook
        = hooks.countP isRepoWebHook := by
  intro hooks
  induction hooks with
  | nil => rfl
  | cons h rest ih =>
    by_cases hr : isRepoWebHook h = true
    · rw [updateRepoWebHooks_cons_pos oh n h rest hr]
      have hru : isRepoWebHook { h with UUID := oh.UUID, Config := legacyConfigFor oh n }
          = true := hr
      simp [List.countP_cons, hr, hru]
    · have hr' : isRepoWebHook h = false := by simpa using hr
      rw [updateRepoWebHooks_cons_neg oh n h rest hr']
      simp [List.countP_cons, hr', ih]

/-- When at most one hook carries the repository-webhook model, after
the update pass the hooks carrying the legacy UUID and the reconciled
configuration are exactly the model-carrying hooks. -/
theorem updateRepoWebHooks_count_legacy (oh : NodeHook) (n : String) :
    ∀ hooks : List NodeHook, hooks.countP isRepoWebHook ≤ 1 →
      ((updateRepoWebHooks oh n hooks).1).countP (isLegacyReconciledHook oh n)
        = hooks.countP isRepoWebHook := by
  intro hooks
  induction hooks with
  | nil => intro _; rfl
  | cons h rest ih =>
    intro hle
    by_cases hr : isRepoWebHook h = true
    · rw [updateRepoWebHooks_cons_pos oh n h rest hr]
      have hrm : h.HookModelName = RepositoryWebHookModel.Name := by
        simpa [isRepoWebHook] using hr
      have hrest : rest.countP isRepoWebHook = 0 := by
        simp only [List.countP_cons, hr, if_pos] at hle
        omega
      have hlr : rest.countP (isLegacyReconciledHook oh n) = 0 := by
        rw [List.countP_eq_zero] at hrest ⊢
        intro a ha
        have hna := hrest a ha
        simp only [isRepoWebHook, decide_eq_true_eq] at hna
        simp [isLegacyReconciledHook, hna]
      have hu : isLegacyReconciledHook oh n
          { h with UUID := oh.UUID, Config := legacyConfigFor oh n } = true := by
        simp [isLegacyReconciledHook, hrm]
      simp [List.countP_cons, hr, hrest, hlr, hu]
    · have hr' : isRepoWebHook h = false := by simpa using hr
      have hrm : ¬ h.HookModelName = RepositoryWebHookModel.Name := by
        simpa [isRepoWebHook] using hr'
      have hlh : isLegacyReconciledHook oh n h = false := by
        simp [isLegacyReconciledHook, hrm]
      have hle' : rest.countP isRepoWebHook ≤ 1 := by
        simp only [List.countP_cons, hr'] at hle
        omega
      rw [updateRepoWebHooks_cons_neg oh n h rest hr']
      simp [List.countP_cons, hlh, hr', ih hle']

/-- Reduction of `reconcileHooks` when a legacy repository webhook
exists in the previous workflow: the default-webhook branch is skipped
and the result is the updated (or extended) hook list. -/
theorem reconcileHooks_legacy (dp : Workflow → String) (ow w : Workflow) (oh : NodeHook)
    (hFrom : w.FromRepository ≠ "")
    (hLegacy : oldRepoWebHookOf (some ow) = some oh) :
    reconcileHooks dp (some ow) w
      = (if (updateRepoWebHooks oh w.Name w.WorkflowData.Node.Hooks).2 = true then
          w.setHooks (updateRepoWebHooks oh w.Name w.WorkflowData.Node.Hooks).1
        else
          w.setHooks ((updateRepoWebHooks oh w.Name w.WorkflowData.Node.Hooks).1
            ++ [legacyAppendedHook oh w.Name])) := by
  unfold reconcileHooks
  rw [if_neg hFrom, hLegacy]
  rcases hup : updateRepoWebHooks oh w.Name w.WorkflowData.Node.Hooks with ⟨hooks, found⟩
  dsimp only
  cases found <;> simp [hup]

/-- Claim C2: with a non-empty repository origin and a legacy
repository-webhook hook `oh` in the previous workflow, reconciliation
overwrites the first same-model hook of the new workflow in place with
the legacy UUID and a cloned legacy configuration whose workflow-name
key is the new workflow's name; when no same-model hook exists, a hook
carrying exactly those values is appended; and (the new workflow holding
at most one same-model hook) the result carries exactly one such
reconciled hook and exactly one repository-webhook-model hook. -/
theorem c2_legacy_hook_identity (dp : Workflow → String) (ow w : Workflow) (oh : NodeHook)
    (hFrom : w.FromRepository ≠ "")
    (hLegacy : oldRepoWebHookOf (some ow) = some oh)
    (hAtMostOne : w.WorkflowData.Node.Hooks.countP isRepoWebHook ≤ 1) :
    (∀ l1 h l2, w.WorkflowData.Node.Hooks = l1 ++ h :: l2 → isRepoWebHook h = true →
        (∀ h' ∈ l1, isRepoWebHook h' = false) →
        (reconcileHooks dp (some ow) w).WorkflowData.Node.Hooks
          = l1 ++ { h with UUID := oh.UUID, Config := legacyConfigFor oh w.Name } :: l2)
    ∧ ((∀ h ∈ w.WorkflowData.Node.Hooks, isRepoWebHook h = false) →
        (reconcileHooks dp (some ow) w).WorkflowData.Node.Hooks
          = w.WorkflowData.Node.Hooks ++ [legacyAppendedHook oh w.Name])
    ∧ ((reconcileHooks dp (some ow) w).WorkflowData.Node.Hooks).countP
        (isLegacyReconciledHook oh w.Name) = 1
    ∧ ((reconcileHooks dp (some ow) w).WorkflowData.Node.Hooks).countP isRepoWebHook
        = 1 := by
  have hred := reconcileHooks_legacy dp ow w oh hFrom hLegacy
  have hohrepo : isRepoWebHook oh = true := by
    unfold oldRepoWebHookOf at hLegacy
    exact List.find?_some hLegacy
  have hohm : oh.HookModelName = RepositoryWebHookModel.Name := by
    simpa [isRepoWebHook] using hohrepo
  by_cases hany : w.WorkflowData.Node.Hooks.any isRepoWebHook = true
  · have hfound : (updateRepoWebHooks oh w.Name w.WorkflowData.Node.Hooks).2 = true := by
      rw [updateRepoWebHooks_snd]
      exact hany
    rw [if_pos hfound] at hred
    have hpos : 0 < w.WorkflowData.Node.Hooks.countP isRepoWebHook := by
      rw [List.countP_pos_iff]
      rw [List.any_eq_true] at hany
      exact hany
    have hone : w.WorkflowData.Node.Hooks.countP isRepoWebHook = 1 :=
      le_antisymm hAtMostOne hpos
    refine ⟨?_, ?_, ?_, ?_⟩
    · intro l1 h l2 hdec hh hl1
      rw [hred]
      show (updateRepoWebHooks oh w.Name w.WorkflowData.Node.Hooks).1 = _
      rw [hdec, updateRepoWebHooks_first oh w.Name l1 h l2 hl1 hh]
    · intro hnone
      exfalso
      rw [List.any_eq_true] at hany
      obtain ⟨x, hx, hpx⟩ := hany
      rw [hnone x hx] at hpx
      cases hpx
    · rw [hred]
      show ((updateRepoWebHooks oh w.Name w.WorkflowData.Node.Hooks).1).countP _ = 1
      rw [updateRepoWebHooks_count_legacy oh w.Name _ hAtMostOne, hone]
    · rw [hred]
      show ((updateRepoWebHooks oh w.Name w.WorkflowData.Node.Hooks).1).countP _ = 1
      rw [updateRepoWebHooks_count_repo, hone]
  · have hany' : w.WorkflowData.Node.Hooks.any isRepoWebHook = false := by
      simpa using hany
    have hfound : ¬ (updateRepoWebHooks oh w.Name w.WorkflowData.Node.Hooks).2 = true := by
      rw [updateRepoWebHooks_snd, hany']
      simp
    rw [if_neg hfound] at hred
    have hid := updateRepoWebHooks_fst_id oh w.Name _ hany'
    have hall : ∀ h ∈ w.WorkflowData.Node.Hooks, isRepoWebHook h = false := by
      intro a ha
      by_contra hcon
      have hat : isRepoWebHook a = true := by simpa using hcon
      have : w.WorkflowData.Node.Hooks.any isRepoWebHook = true :=
        List.any_eq_true.mpr ⟨a, ha, hat⟩
      rw [hany'] at this
      cases this
    have h0repo : w.WorkflowData.Node.Hooks.countP isRepoWebHook = 0 :=
      List.countP_eq_zero.mpr (fun a ha => by rw [hall a ha]; simp)
    have h0leg : w.WorkflowData.Node.Hooks.countP (isLegacyReconciledHook oh w.Name) = 0 := by
      rw [List.countP_eq_zero]
      intro a ha
      have hna := hall a ha
      simp only [isRepoWebHook, decide_eq_true_eq] at hna
      simp [isLegacyReconciledHook, hna]
    have happrepo : isRepoWebHook (legacyAppendedHook oh w.Name) = true := by
      simp [isRepoWebHook, legacyAppendedHook, hohm]
    have happleg : isLegacyReconciledHook oh w.Name (legacyAppendedHook oh w.Name) = true := by
      simp [isLegacyReconciledHook, legacyAppendedHook, hohm]
    refine ⟨?_, ?_, ?_, ?_⟩
    · intro l1 h l2 hdec hh _
      exfalso
      have := hall h (by rw [hdec]; simp)
      rw [this] at hh
      cases hh
    · intro _
      rw [hred]
      show (updateRepoWebHooks oh w.Name w.WorkflowData.Node.Hooks).1 ++ _ = _
      rw [hid]
    · rw [hred]
      show ((updateRepoWebHooks oh w.Name w.WorkflowData.Node.Hooks).1
        ++ [legacyAppendedHook oh w.Name]).countP _ = 1
      rw [hid, List.countP_append, h0leg]
      simp [List.countP_cons, happleg]
    · rw [hred]
      show ((updateRepoWebHooks oh w.Name w.WorkflowData.Node.Hooks).1
        ++ [legacyAppendedHook oh w.Name]).countP _ = 1
      rw [hid, List.countP_append, h0repo]
      simp [List.countP_cons, happrepo]

/-- Witness for C2: the legacy hook's UUID `U1` and cloned configuration
(workflow-name key updated to `neww`) land on the new workflow's
matching hook, which is the unique reconciled hook. -/
theorem c2_legacy_hook_identity_witness :
    (reconcileHooks constantPayload (some oldWorkflowFix) newWorkflowFix).WorkflowData.Node.Hooks
      = [{ newHookNoUUID with
            UUID := "U1", Config := legacyConfigFor legacyHook "neww" }]
    ∧ ((reconcileHooks constantPayload (some oldWorkflowFix)
          newWorkflowFix).WorkflowData.Node.Hooks).countP
        (isLegacyReconciledHook legacyHook "neww") = 1 := by
  have h := c2_legacy_hook_identity constantPayload oldWorkflowFix newWorkflowFix legacyHook
    (by decide) rfl (by decide)
  exact ⟨h.1 [] newHookNoUUID [] rfl (by decide) (by simp), h.2.2.1⟩

/-- Reduction of `reconcileHooks` when no legacy repository webhook
exists: the default-webhook branch runs and recomputes the default
payload. -/
theorem reconcileHooks_nolegacy (dp : Workflow → String) (oldW : Option Workflow)
    (w : Workflow) (hFrom : w.FromRepository ≠ "")
    (hNo : oldRepoWebHookOf oldW = none) :
    reconcileHooks dp oldW w
      = (if w.WorkflowData.Node.Hooks.any (fun h => h.Ref = newRepoWebHook.Ref) then
          { w with WorkflowData := { Node := { w.WorkflowData.Node with
              Context := { w.WorkflowData.Node.Context with DefaultPayload := dp w } } } }
        else
          let w2 := w.setHooks (w.WorkflowData.Node.Hooks ++ [newRepoWebHook])
          { w2 with WorkflowData := { Node := { w2.WorkflowData.Node with
              Context := { w2.WorkflowData.Node.Context with
                DefaultPayload := dp w2 } } } }) := by
  unfold reconcileHooks
  rw [if_neg hFrom, hNo]
  dsimp only
  by_cases hh : w.WorkflowData.Node.Hooks.any (fun h => h.Ref = newRepoWebHook.Ref) = true
  · simp [hh]
  · have hh' : w.WorkflowData.Node.Hooks.any (fun h => h.Ref = newRepoWebHook.Ref)
        = false := by simpa using hh
    simp [hh', Workflow.setHooks]

/-- Claim C3: with a non-empty repository origin and no legacy
repository webhook (previous workflow absent or lacking one), a
default-configured repository webhook is appended exactly when no
existing hook has an equal reference, the number of hooks with that
reference in the result is one when there were none and unchanged
otherwise (no duplication), and the node context's default payload is
recomputed from the workflow carrying the final hook set. -/
theorem c3_default_repo_webhook (dp : Workflow → String) (oldW : Option Workflow)
    (w : Workflow) (hFrom : w.FromRepository ≠ "")
    (hNo : oldRepoWebHookOf oldW = none) :
    (w.WorkflowData.Node.Hooks.any (fun h => h.Ref = newRepoWebHook.Ref) = false →
        (reconcileHooks dp oldW w).WorkflowData.Node.Hooks
          = w.WorkflowData.Node.Hooks ++ [newRepoWebHook])
    ∧ (w.WorkflowData.Node.Hooks.any (fun h => h.Ref = newRepoWebHook.Ref) = true →
        (reconcileHooks dp oldW w).WorkflowData.Node.Hooks
          = w.WorkflowData.Node.Hooks)
    ∧ ((reconcileHooks dp oldW w).WorkflowData.Node.Hooks).countP
          (fun h => h.Ref = newRepoWebHook.Ref)
        = (if w.WorkflowData.Node.Hooks.countP (fun h => h.Ref = newRepoWebHook.Ref) = 0
           then 1
           else w.WorkflowData.Node.Hooks.countP (fun h => h.Ref = newRepoWebHook.Ref))
    ∧ (reconcileHooks dp oldW w).WorkflowData.Node.Context.DefaultPayload
        = dp (w.setHooks ((reconcileHooks dp oldW w).WorkflowData.Node.Hooks)) := by
  have hred := reconcileHooks_nolegacy dp oldW w hFrom hNo
  by_cases hh : w.WorkflowData.Node.Hooks.any (fun h => h.Ref = newRepoWebHook.Ref) = true
  · rw [if_pos hh] at hred
    have hpos : 0 < w.WorkflowData.Node.Hooks.countP (fun h => h.Ref = newRepoWebHook.Ref) := by
      rw [List.countP_pos_iff]
      rw [List.any_eq_true] at hh
      exact hh
    refine ⟨?_, ?_, ?_, ?_⟩
    · intro hcon
      rw [hcon] at hh
      cases hh
    · intro _
      rw [hred]
    · rw [hred]
      show w.WorkflowData.Node.Hooks.countP _ = _
      rw [if_neg (by omega)]
    · rw [hred]
      rfl
  · have hh' : w.WorkflowData.Node.Hooks.any (fun h => h.Ref = newRepoWebHook.Ref)
        = false := by simpa using hh
    rw [if_neg hh] at hred
    have h0 : w.WorkflowData.Node.Hooks.countP (fun h => h.Ref = newRepoWebHook.Ref) = 0 := by
      rw [List.countP_eq_zero]
      intro a ha
      by_contra hcon
      have hat : (fun h : NodeHook => decide (h.Ref = newRepoWebHook.Ref)) a = true := by
        simpa using hcon
      have : w.WorkflowData.Node.Hooks.any (fun h => h.Ref = newRepoWebHook.Ref) = true :=
        List.any_eq_true.mpr ⟨a, ha, hat⟩
      rw [hh'] at this
      cases this
    refine ⟨?_, ?_, ?_, ?_⟩
    · intro _
      rw [hred]
      rfl
    · intro hcon
      rw [hcon] at hh'
      cases hh'
    · rw [hred]
      show (w.WorkflowData.Node.Hooks ++ [newRepoWebHook]).countP _ = _
      rw [List.countP_append, h0, if_pos rfl]
      simp [List.countP_cons]
    · rw [hred]
      rfl

/-- Witness for C3: a first import with no hooks at all appends exactly
the default repository webhook and recomputes the default payload from
the final hook set. -/
theorem c3_default_repo_webhook_witness :
    (reconcileHooks constantPayload none freshRepoWorkflow).WorkflowData.Node.Hooks
      = freshRepoWorkflow.WorkflowData.Node.Hooks ++ [newRepoWebHook]
    ∧ (reconcileHooks constantPayload none freshRepoWorkflow).WorkflowData.Node.Context.DefaultPayload
      = constantPayload (freshRepoWorkflow.setHooks
          ((reconcileHooks constantPayload none freshRepoWorkflow).WorkflowData.Node.Hooks)) := by
  have h := c3_default_repo_webhook constantPayload none freshRepoWorkflow (by decide) rfl
  exact ⟨h.1 rfl, h.2.2.2⟩

/-- Counterexample to claim C7: a requested VCS-server override with a
zero root application id does not make the operation fail — the embedded
`ParseAndImport` slice succeeds and merely skips the override
(workflow_parser.go:92-100 guards with `appID != 0` and has no error
branch). -/
theorem c7_missing_app_counterexample :
    overrideOpts.VCSServer = "github"
    ∧ noAppWorkflow.WorkflowData.Node.Context.ApplicationID = 0
    ∧ parseAndImportCore constantPayload overrideOpts none noAppWorkflow
        = .ok noAppWorkflow :=
  ⟨rfl, rfl, rfl⟩

/-- Claim C7 as amended: when the root application id is zero the
requested override is silently skipped (no failure — the embedded slice
can only fail on the workflow-name check); when the id is non-zero and
an override was requested, that application's VCS server, repository
full name and credential strategy are overwritten in the application
map. -/
theorem c7_vcs_override (dp : Workflow → String) (opts : ImportOptions)
    (oldW : Option Workflow) (w : Workflow) :
    (w.WorkflowData.Node.Context.ApplicationID = 0 → applyVCSOverride opts w = w)
    ∧ (opts.VCSServer ≠ "" → w.WorkflowData.Node.Context.ApplicationID ≠ 0 →
        (applyVCSOverride opts w).Applications
          = mapSetInt w.Applications w.WorkflowData.Node.Context.ApplicationID
              { w.GetApplication w.WorkflowData.Node.Context.ApplicationID with
                  VCSServer := opts.VCSServer
                , RepositoryFullname := opts.RepositoryName
                , RepositoryStrategy := opts.RepositoryStrategy })
    ∧ (∀ er, parseAndImportCore dp opts oldW w = .error er →
        er = .workflowNameImport ∧ opts.WorkflowName ≠ "") := by
  refine ⟨?_, ?_, ?_⟩
  · intro h0
    simp [applyVCSOverride, h0]
  · intro hv h0
    simp [applyVCSOverride, hv, h0]
  · intro er her
    unfold parseAndImportCore at her
    dsimp only at her
    split at her
    · rename_i hcond
      injection her with h
      exact ⟨h.symm, hcond.1⟩
    · cases her

/-- Witness for C7's amended theorem: the override is skipped on
`noAppWorkflow`. -/
theorem c7_vcs_override_witness :
    applyVCSOverride overrideOpts noAppWorkflow = noAppWorkflow :=
  (c7_vcs_override constantPayload overrideOpts none noAppWorkflow).1 rfl

/-- Counterexample to claim C8: packing is claimed to fail only on a
write error or when zero bytes are written for an entry whose content is
non-empty; but the `n == 0` guard of `ReadCDSFiles`
(repository.go:131-133) does not look at the content length, so an
entry whose content is legitimately empty — no write error, nothing
truncated — also makes packing fail. -/
theorem c8_empty_content_counterexample :
    ("" : String).length = 0
    ∧ ReadCDSFiles [("a.yml", "")] = .error "nothing to write" :=
  ⟨rfl, rfl⟩

/-- Claim C8 as amended: each packed entry carries the file's base name,
fixed mode `0600` and the exact content length; in the in-memory model
(where buffer writes cannot fail) packing fails exactly when some
entry's content is empty — zero bytes written — whether or not the
content was non-empty. -/
theorem c8_packing (files : List (String × String)) :
    ((∀ f ∈ files, f.2.length ≠ 0) →
      ReadCDSFiles files = .ok (files.map (fun f =>
        ({ Name := filepathBase f.1, Mode := 0o600, Size := (f.2.length : Int) }, f.2))))
    ∧ ((∃ f ∈ files, f.2.length = 0) →
      ReadCDSFiles files = .error "nothing to write") := by
  induction files with
  | nil =>
    refine ⟨fun _ => rfl, fun h => ?_⟩
    simp at h
  | cons f rest ih =>
    obtain ⟨fn, fc⟩ := f
    refine ⟨?_, ?_⟩
    · intro h
      have h0 : fc.length ≠ 0 := h (fn, fc) (List.mem_cons_self _ _)
      have hr := ih.1 (fun g hg => h g (List.mem_cons_of_mem _ hg))
      simp [ReadCDSFiles, h0, hr]
    · rintro ⟨g, hg, hg0⟩
      rcases List.mem_cons.mp hg with hgf | hgr
      · subst hgf
        simp only at hg0
        simp [ReadCDSFiles, hg0]
      · have hrest := ih.2 ⟨g, hgr, hg0⟩
        by_cases h0 : fc.length = 0
        · simp [ReadCDSFiles, h0]
        · simp [ReadCDSFiles, h0, hrest]

/-- Witness for C8's amended theorem: a one-entry mapping with non-empty
content packs into the expected header and content, with the directory
stripped from the name. -/
theorem c8_packing_witness :
    ReadCDSFiles [(".cds/dir/a.yml", "kind: x")]
      = .ok [({ Name := "a.yml", Mode := 0o600, Size := 7 }, "kind: x")] :=
  (c8_packing [(".cds/dir/a.yml", "kind: x")]).1 (by decide)

/-- Claim C10: `Parse` mutates its exported-workflow argument when it
declares no permissions — the project-group permissions are written into
the argument's own permission map before `GetWorkflow` runs, so the
caller observes them after `Parse` returns — and leaves the map
untouched when at least one permission is declared. Stated on the
name-pattern-passing path (an invalid name returns before the
permission block, workflow_parser.go:36-38). -/
theorem c10_parse_mutates_permissions (gw : ExportWorkflow → Except String Workflow)
    (proj : Project) (ew : ExportWorkflow)
    (hname : namePatternMatch ew.Name = true) :
    (ew.Permissions = [] →
      (Parse gw proj ew).1
        = { ew with Permissions :=
            proj.ProjectGroups.foldl (fun m p => mapSet m p.Group.Name p.Permission) [] })
    ∧ (ew.Permissions ≠ [] → (Parse gw proj ew).1 = ew) := by
  constructor
  · intro hp
    have hlen : ew.Permissions.length = 0 := by rw [hp]; rfl
    unfold Parse
    rw [hname]
    simp only [Bool.not_true, Bool.false_eq_true, if_false, hlen, if_pos]
    cases hgw : gw { ew with Permissions :=
        proj.ProjectGroups.foldl (fun m p => mapSet m p.Group.Name p.Permission) [] } <;>
      simp [hgw]
  · intro hp
    have hlen : ¬ ew.Permissions.length = 0 := by
      simpa [List.length_eq_zero] using hp
    unfold Parse
    rw [hname]
    simp only [Bool.not_true, Bool.false_eq_true, if_false, hlen, if_neg]
    cases hgw : gw ew <;> simp [hgw]

/-- One loop iteration appends exactly the entry's parse error (if any)
to the collector. -/
theorem processEntry_errs {W A P E : Type} (ps : Parsers W A P E)
    (st : ExtractState W A P E) (e : TarEntry) :
    (processEntry ps st e).errs = st.errs ++ (entryParseErr ps e).toList := by
  unfold processEntry entryParseErr
  cases hc : classifyEntry e.name
  case app => cases hp : ps.parseApp e.content <;> simp [hc, hp]
  case pip => cases hp : ps.parsePip e.content <;> simp [hc, hp]
  case env => cases hp : ps.parseEnv e.content <;> simp [hc, hp]
  case workflow => cases hp : ps.parseWorkflow e.content <;> simp [hc, hp]

/-- The extraction loop's collector holds exactly the parse errors of
all entries, in encounter order — one bad entry never stops the
processing of the rest. -/
theorem foldl_processEntry_errs {W A P E : Type} (ps : Parsers W A P E)
    (entries : List TarEntry) :
    ∀ st : ExtractState W A P E,
      (entries.foldl (processEntry ps) st).errs
        = st.errs ++ entries.filterMap (entryParseErr ps) := by
  induction entries with
  | nil => intro st; simp
  | cons e rest ih =>
    intro st
    rw [List.foldl_cons, ih, processEntry_errs]
    cases hp : entryParseErr ps e <;> simp [hp]

/-- Claim C4: entries are deserialized independently — a failing entry
is recorded in the aggregate collector and skipped while every remaining
entry is still processed; when no entry fails the populated bundle is
returned, and otherwise extraction fails with the single combined
"workflow invalid" error listing exactly the parse errors of every
failing file (each message names its file), with no partial bundle. -/
theorem c4_aggregate_extraction {W A P E : Type} (ps : Parsers W A P E)
    (entries : List TarEntry) :
    (entries.filterMap (entryParseErr ps) = [] →
      ∃ b, extractFromCDSFiles ps entries = .ok b)
    ∧ (entries.filterMap (entryParseErr ps) ≠ [] →
      extractFromCDSFiles ps entries
        = .error (.workflowInvalid (entries.filterMap (entryParseErr ps))))
    ∧ (∀ e ∈ entries, ∀ m, entryParseErr ps e = some m →
        ∃ s t, m = s ++ e.name ++ t) := by
  have herrs : (entries.foldl (processEntry ps)
      { res := { wrkflw := none, apps := [], pips := [], envs := [] }, errs := [] }).errs
      = entries.filterMap (entryParseErr ps) := by
    rw [foldl_processEntry_errs]
    rfl
  refine ⟨?_, ?_, ?_⟩
  · intro h
    refine ⟨(entries.foldl (processEntry ps)
      { res := { wrkflw := none, apps := [], pips := [], envs := [] }, errs := [] }).res, ?_⟩
    unfold extractFromCDSFiles
    dsimp only
    rw [if_pos (by rw [herrs, h])]
  · intro h
    unfold extractFromCDSFiles
    dsimp only
    rw [if_neg (by rw [herrs]; exact h), herrs]
  · intro e _ m hm
    unfold entryParseErr at hm
    cases hc : classifyEntry e.name <;> rw [hc] at hm
    case app =>
      cases hp : ps.parseApp e.content <;> rw [hp] at hm
      · injection hm with hm
        exact ⟨"Unable to unmarshal application ", _, by rw [← hm, String.append_assoc]⟩
      · cases hm
    case pip =>
      cases hp : ps.parsePip e.content <;> rw [hp] at hm
      · injection hm with hm
        exact ⟨"Unable to unmarshal pipeline ", _, by rw [← hm, String.append_assoc]⟩
      · cases hm
    case env =>
      cases hp : ps.parseEnv e.content <;> rw [hp] at hm
      · injection hm with hm
        exact ⟨"Unable to unmarshal environment ", _, by rw [← hm, String.append_assoc]⟩
      · cases hm
    case workflow =>
      cases hp : ps.parseWorkflow e.content <;> rw [hp] at hm
      · injection hm with hm
        exact ⟨"Unable to unmarshal workflow ", _, by rw [← hm, String.append_assoc]⟩
      · cases hm

/-- Witness for C4: a three-file archive where only the second file
fails to deserialize yields the combined error naming exactly that
file. -/
theorem c4_aggregate_extraction_witness :
    extractFromCDSFiles pipFailParsers
        [⟨"a.app.yml", "appcontent"⟩, ⟨"b.pip.yml", "bad"⟩, ⟨"w.yml", "wfcontent"⟩]
      = .error (.workflowInvalid ["Unable to unmarshal pipeline b.pip.yml: invalid yaml"]) :=
  (c4_aggregate_extraction pipFailParsers
    [⟨"a.app.yml", "appcontent"⟩, ⟨"b.pip.yml", "bad"⟩, ⟨"w.yml", "wfcontent"⟩]).2.1
    (by decide)

/-- Witness for C10: concrete project with one group; the argument's
permission map is observed mutated even though `GetWorkflow` fails. -/
theorem c10_parse_mutates_permissions_witness :
    (Parse (fun _ => .error "not parsed")
        { ID := 7, Key := "PRJ", ProjectGroups := [{ Group := { Name := "dev" }, Permission := 7 }] }
        { Name := "mywf", Permissions := [] }).1
      = { Name := "mywf", Permissions := [("dev", 7)] } :=
  (c10_parse_mutates_permissions (fun _ => .error "not parsed")
    { ID := 7, Key := "PRJ", ProjectGroups := [{ Group := { Name := "dev" }, Permission := 7 }] }
    { Name := "mywf", Permissions := [] } (by decide)).1 rfl

end CDS
